import Mathlib

/-!
Verification of the scope analysis engine of src/libs/histogram.c (darktable
histogram/waveform/vectorscope library module).

Shallow embedding conventions:
* C machine integers (`int`, `uint32_t`, `size_t`) are modelled as `Nat`/`Int`;
  none of the quantities involved (bin counts, buffer dimensions) can overflow
  in the operating range of the module.
* C `float` values are modelled by `CFloat`: NaN, the two infinities, or an
  exact finite value carried as a rational.  Rounding error is not modelled;
  every arithmetic step the claims depend on (small integer quotients, the
  8/9 and 1/40 constants, bin scales) is exact in the idealization.
* The color machinery consumed by the vectorscope
  (`dt_ioppr_rgb_matrix_to_xyz`, `dt_XYZ_to_xyY`, `dt_xyY_to_Luv`,
  `dt_XYZ_D50_2_XYZ_D65`, `dt_XYZ_2_JzAzBz`, libm `hypotf`/`powf`) lives in
  common/ and libm, outside the sources of this module; it is consumed as an
  opaque capability, exactly as the specification prescribes ("convert RGB to
  CIE PCS XYZ given a profile handle"), and is passed in as function
  parameters with no assumed properties.
* GUI side effects (tooltips, button paints, redraw queueing, conf strings)
  are external to the engine state and are not modelled.
-/

/-- Idealized IEEE-754 single-precision value: NaN, a signed infinity, or an
exact finite value represented as a rational. -/
inductive CFloat where
  | nan
  | posInf
  | negInf
  | fin (q : ℚ)
deriving DecidableEq

/-- C `isnan`. -/
def CFloat.isNan : CFloat → Bool
  | .nan => true
  | _ => false

/-- IEEE multiplication on idealized floats (finite arithmetic is exact;
infinity times zero is NaN). -/
def CFloat.mul : CFloat → CFloat → CFloat
  | .nan, _ => .nan
  | _, .nan => .nan
  | .posInf, .posInf => .posInf
  | .posInf, .negInf => .negInf
  | .negInf, .posInf => .negInf
  | .negInf, .negInf => .posInf
  | .posInf, .fin q => if 0 < q then .posInf else if q < 0 then .negInf else .nan
  | .negInf, .fin q => if 0 < q then .negInf else if q < 0 then .posInf else .nan
  | .fin q, .posInf => if 0 < q then .posInf else if q < 0 then .negInf else .nan
  | .fin q, .negInf => if 0 < q then .negInf else if q < 0 then .posInf else .nan
  | .fin a, .fin b => .fin (a * b)

/-- IEEE subtraction on idealized floats. -/
def CFloat.sub : CFloat → CFloat → CFloat
  | .nan, _ => .nan
  | _, .nan => .nan
  | .posInf, .posInf => .nan
  | .posInf, _ => .posInf
  | .negInf, .negInf => .nan
  | .negInf, _ => .negInf
  | .fin _, .posInf => .negInf
  | .fin _, .negInf => .posInf
  | .fin a, .fin b => .fin (a - b)

/-- C99 `fmaxf`: if exactly one operand is NaN the other is returned. -/
def CFloat.fmax : CFloat → CFloat → CFloat
  | .nan, y => y
  | x, .nan => x
  | .posInf, _ => .posInf
  | _, .posInf => .posInf
  | .negInf, y => y
  | x, .negInf => x
  | .fin a, .fin b => .fin (max a b)

/-- Largest value representable in a 64-bit `size_t`. -/
def sizeTMax : Nat := 2 ^ 64 - 1

/-- The C `(size_t)` cast of a float: truncation toward zero for finite
values.  The cast of an out-of-range value (infinity, or NaN, neither of
which survives the preceding `fmaxf(.,0)` guard except `+inf`) is not
specified by C; we pick the saturating value for `+inf` — every choice is
immediately clamped by the `MIN(., height_i)` in the one place the cast is
used, so no theorem depends on the choice. -/
def CFloat.toSizeT : CFloat → Nat
  | .nan => 0
  | .negInf => 0
  | .posInf => sizeTMax
  | .fin q => (⌊q⌋).toNat

/-- Models `ceilf((float)a / (float)b)` applied to the integral operands of
the waveform sizing code: the exact ceiling of the quotient.  (For the
operand range of this module — preview widths of a few thousand at most —
single-precision division followed by `ceilf` computes exactly this.) -/
def ceilfDiv (a b : Nat) : Nat := (a + b - 1) / b

/-- `dt_histogram_roi_t`: source dimensions plus an optional crop.  All
fields are nonnegative by construction in `dt_lib_histogram_process` (the
crop values are clamped into `[0,width]`/`[0,height]`). -/
structure Roi where
  width : Nat
  height : Nat
  crop_x : Nat
  crop_y : Nat
  crop_width : Nat
  crop_height : Nat

/-- `dt_lib_histogram_scope_type_t`. -/
inductive ScopeType where
  | histogram
  | waveform
  | vectorscope
deriving DecidableEq

/-- The cycling `(d->scope_type + 1) % DT_LIB_HISTOGRAM_SCOPE_N` of
`_scope_type_clicked`. -/
def ScopeType.next : ScopeType → ScopeType
  | .histogram => .waveform
  | .waveform => .vectorscope
  | .vectorscope => .histogram

/-- `dt_lib_histogram_scale_t`. -/
inductive HistogramScale where
  | logarithmic
  | linear
deriving DecidableEq

/-- `(d->histogram_scale + 1) % DT_LIB_HISTOGRAM_N`. -/
def HistogramScale.next : HistogramScale → HistogramScale
  | .logarithmic => .linear
  | .linear => .logarithmic

/-- `dt_lib_histogram_waveform_type_t`. -/
inductive WaveformType where
  | overlaid
  | parade
deriving DecidableEq

/-- `(d->waveform_type + 1) % DT_LIB_HISTOGRAM_WAVEFORM_N`. -/
def WaveformType.next : WaveformType → WaveformType
  | .overlaid => .parade
  | .parade => .overlaid

/-- `dt_lib_histogram_vectorscope_type_t`. -/
inductive VectorscopeType where
  | cieluv
  | jzazbz
deriving DecidableEq

/-- `(d->vectorscope_type + 1) % DT_LIB_HISTOGRAM_VECTORSCOPE_N`. -/
def VectorscopeType.next : VectorscopeType → VectorscopeType
  | .cieluv => .jzazbz
  | .jzazbz => .cieluv

/-- The engine-state part of `dt_lib_histogram_t`: the three buffer groups,
their dimensions and the mode/sub-mode fields.  Buffers are modelled as
total functions (the C arrays, with indices beyond the significant region
carrying whatever was there before).  GUI widget fields, drag state and the
channel-visibility booleans play no part in the claims and are omitted. -/
structure ScopeState where
  histogram : Fin 4 → Fin 256 → Nat
  histogram_max : Nat
  waveform_linear : Nat → ℚ
  waveform_width : Nat
  waveform_height : Nat
  waveform_max_width : Nat
  vectorscope_alpha : Nat → Nat → Nat
  vectorscope_diameter : Nat
  vectorscope_graticule : Fin 6 → CFloat × CFloat
  scope_type : ScopeType
  histogram_scale : HistogramScale
  waveform_type : WaveformType
  vectorscope_type : VectorscopeType

/-- Flat index of channel `c` of pixel `(in_x, in_y)` in a row-major
4-channel buffer of row length `width`: `4*(width*in_y + in_x) + c`. -/
def pixIndex (width in_y in_x c : Nat) : Nat := 4 * (width * in_y + in_x) + c

/-- Flat index written by the waveform binner:
`4*(wf_width*out_y + out_x) + k`. -/
def wfIndex (wf_width out_y out_x k : Nat) : Nat := 4 * (wf_width * out_y + out_x) + k

/-- One `+=` of `scale` into an accumulation buffer at key `t`. -/
def bump {κ : Type} [DecidableEq κ] (scale : ℚ) (b : κ → ℚ) (t : κ) : κ → ℚ :=
  fun i => if i = t then b i + scale else b i

/-- A loop of `+=`s of `scale` into a buffer, one per element of `l`, in
order — the shape of both pixel-accumulation loops of the module. -/
def accumulate {κ : Type} [DecidableEq κ] (scale : ℚ) (b : κ → ℚ) (l : List κ) : κ → ℚ :=
  l.foldl (bump scale) b

/-- `sample_width = MAX(1, roi->width - roi->crop_width - roi->crop_x)` from
`_lib_histogram_process_waveform` (truncated `Nat` subtraction and the C
`int` subtraction followed by `MAX(1, .)` agree: both yield 1 whenever the
difference is not positive). -/
def sampleWidth (roi : Roi) : Nat := max 1 (roi.width - roi.crop_width - roi.crop_x)

/-- `sample_height = MAX(1, roi->height - roi->crop_height - roi->crop_y)`. -/
def sampleHeight (roi : Roi) : Nat := max 1 (roi.height - roi.crop_height - roi.crop_y)

/-- `bin_width = ceilf(sample_width / (float)d->waveform_max_width)`. -/
def binWidth (waveform_max_width : Nat) (roi : Roi) : Nat :=
  ceilfDiv (sampleWidth roi) waveform_max_width

/-- Per-pixel vertical bucket of the waveform binner
(`_lib_histogram_process_waveform`):
`v = 1.0f - (8.0f/9.0f)*in[..]`, then
`out_y = isnan(v) ? 0 : MIN((size_t)fmaxf(v*height_f, 0.0f), height_i)`. -/
def wf_out_y (waveform_height : Nat) (pixel : CFloat) : Nat :=
  let height_i := waveform_height - 1
  let height_f : ℚ := (height_i : ℚ)
  let v := CFloat.sub (.fin 1) (CFloat.mul (.fin (8/9)) pixel)
  if v.isNan then 0
  else min (CFloat.toSizeT (CFloat.fmax (CFloat.mul v (.fin height_f)) (.fin 0))) height_i

/-- `scale = brightness / (sample_height * bin_width)` with
`brightness = d->waveform_height / 40.0f`. -/
def wfScale (waveform_height waveform_max_width : Nat) (roi : Roi) : ℚ :=
  ((waveform_height : ℚ) / 40) / ((sampleHeight roi : ℚ) * (binWidth waveform_max_width roi : ℚ))

/-- The sequence of flat output indices written (each with `+= scale`) by
the triple loop of `_lib_histogram_process_waveform`, in iteration order:
output columns `out_x < wf_width`, source columns
`in_x ∈ [out_x*bin_width + crop_x, MIN(that + bin_width, width - crop_width))`,
rows `in_y ∈ [crop_y, height - crop_height)`, channels `k ∈ {0,1,2}` reading
input channel `2 - k` (the BGR/RGB flip). -/
def wf_targets (input : Nat → CFloat) (roi : Roi)
    (waveform_height wf_width bin_width : Nat) : List Nat :=
  (List.range wf_width).flatMap fun out_x =>
    (List.range' (out_x * bin_width + roi.crop_x)
        (min (out_x * bin_width + roi.crop_x + bin_width) (roi.width - roi.crop_width)
          - (out_x * bin_width + roi.crop_x))).flatMap fun in_x =>
      (List.range' roi.crop_y (roi.height - roi.crop_height - roi.crop_y)).flatMap fun in_y =>
        [0, 1, 2].map fun k =>
          wfIndex wf_width
            (wf_out_y waveform_height (input (pixIndex roi.width in_y in_x (2 - k)))) out_x k

/-- `_lib_histogram_process_waveform` as a state transformer: computes the
binned width, zero-fills the significant region of the linear buffer
(`dt_iop_image_fill` over `wf_width × waveform_height × 4`), then runs the
accumulation loop. -/
def lib_histogram_process_waveform (s : ScopeState) (input : Nat → CFloat) (roi : Roi) :
    ScopeState :=
  let bin_width := binWidth s.waveform_max_width roi
  let wf_width := ceilfDiv (sampleWidth roi) bin_width
  let scale := wfScale s.waveform_height s.waveform_max_width roi
  let filled : Nat → ℚ := fun i =>
    if i < 4 * wf_width * s.waveform_height then 0 else s.waveform_linear i
  { s with
    waveform_width := wf_width,
    waveform_linear :=
      accumulate scale filled (wf_targets input roi s.waveform_height wf_width bin_width) }

/-- Pixel coordinates `(x, y)` of the crop rectangle of an ROI:
`x ∈ [crop_x, width - crop_width)`, `y ∈ [crop_y, height - crop_height)`. -/
def cropRect (roi : Roi) : Finset (Nat × Nat) :=
  Finset.Ico roi.crop_x (roi.width - roi.crop_width) ×ˢ
    Finset.Ico roi.crop_y (roi.height - roi.crop_height)

/-- Modelled from the spec: the bin chosen by the histogram worker of
common/histogram.c (not under src/), which multiplies the channel value by
`mul = bins_count - 1 = 255` (set up in `_lib_histogram_process_histogram`)
and clamps the resulting bin to `[0,255]`; out-of-range input is clamped,
never rejected. -/
def specBin (v : CFloat) : Fin 256 :=
  match v with
  | .nan => 0
  | .negInf => 0
  | .posInf => 255
  | .fin q => ⟨min ((⌊q * 255⌋).toNat) 255, Nat.lt_succ_of_le (Nat.min_le_right _ _)⟩

/-- Modelled from the spec: `dt_histogram_helper` (common/histogram.c, not
under src/) clears the 4×256 counters and then, for every pixel of the
ROI's crop rectangle, increments the clamped bin of each of the three color
channels independently; the fourth channel is unused and stays zero. -/
def dt_histogram_helper (input : Nat → CFloat) (roi : Roi) : Fin 4 → Fin 256 → Nat :=
  fun ch b =>
    if ch.val < 3 then
      ((cropRect roi).filter fun p =>
        specBin (input (pixIndex roi.width p.2 p.1 ch.val)) = b).card
    else 0

/-- Modelled from the spec: `dt_histogram_max_helper` (common/histogram.c,
not under src/) yields, per channel, the maximum single-bin count of the
freshly computed counters. -/
def dt_histogram_max_helper (hist : Fin 4 → Fin 256 → Nat) : Fin 4 → Nat :=
  fun ch => Finset.univ.sup fun b : Fin 256 => hist ch b

/-- `_lib_histogram_process_histogram`: zeroes `histogram_max` and the
counters, recomputes the counters from the input, and sets
`d->histogram_max = MAX(MAX(histogram_max[0], histogram_max[1]), histogram_max[2])`. -/
def lib_histogram_process_histogram (s : ScopeState) (input : Nat → CFloat) (roi : Roi) :
    ScopeState :=
  let hist := dt_histogram_helper input roi
  let m := dt_histogram_max_helper hist
  { s with histogram := hist, histogram_max := max (max (m 0) (m 1)) (m 2) }

/-- The external profile capability consumed by the vectorscope: an opaque
projection taking a 4-channel pixel through `rgb_to_chromaticity`
(profile matrix → XYZ → u*v* or JzAzBz, all in common/, outside this
module's sources) to the two stored chromaticity coordinates
`(chromaticity[1], chromaticity[2])`. -/
structure ProfileInfo where
  proj : (Fin 4 → CFloat) → ℚ × ℚ

/-- The `in_rgb` table of `_lib_histogram_process_vectorscope`: the six pure
primaries/secondaries (R, G, B, C, M, Y) as 4-channel pixels. -/
def vs_primaries_q : List (List ℚ) :=
  [[1, 0, 0, 1], [0, 1, 0, 1], [0, 0, 1, 1], [0, 1, 1, 1], [1, 0, 1, 1], [1, 1, 0, 1]]

/-- Channel `c` of primary `k` of the `in_rgb` table. -/
def vs_primaries (k : Fin 6) (c : Fin 4) : CFloat :=
  .fin ((vs_primaries_q.getD k.val []).getD c.val 0)

/-- The loop indices `k = 0..5` of the graticule loops, as a literal list. -/
def six : List (Fin 6) := [0, 1, 2, 3, 4, 5]

/-- `max_diam`: the fold `max_diam = MAX(max_diam, hypotf(.,.))` over the six
raw graticule projections, starting from `0.0f`; `hypotf` is libm code
outside this module and is passed in opaquely. -/
def vs_max_diam (hypot : ℚ → ℚ → ℚ) (raw : Fin 6 → ℚ × ℚ) : ℚ :=
  six.foldl (fun acc k => max acc (hypot (raw k).1 (raw k).2)) 0

/-- Truncation toward zero: the C `(int)` cast of a finite float. -/
def truncInt (q : ℚ) : Int := if 0 ≤ q then ⌊q⌋ else ⌈q⌉

/-- One axis of the vectorscope grid cell:
`out = (int)(vs_diameter * (chromaticity / max_diam + 0.5f))`. -/
def vs_cell (diameter : Nat) (max_diam c : ℚ) : Int :=
  truncInt ((diameter : ℚ) * (c / max_diam + 1 / 2))

/-- Both cell coordinates of one projected pixel. -/
def vs_cell_of (diameter : Nat) (max_diam : ℚ) (c : ℚ × ℚ) : Int × Int :=
  (vs_cell diameter max_diam c.1, vs_cell diameter max_diam c.2)

/-- The in-grid test of `_lib_histogram_process_vectorscope`:
`out_x >= 0 && out_x < vs_diameter-1 && out_y >= 0 && out_y <= vs_diameter-1`
(note the asymmetry: strict `< vs_diameter-1` on x, `<= vs_diameter-1` on y). -/
def vs_hit (diameter : Nat) (x y : Int) : Prop :=
  0 ≤ x ∧ x < (diameter : Int) - 1 ∧ 0 ≤ y ∧ y ≤ (diameter : Int) - 1

instance (diameter : Nat) (x y : Int) : Decidable (vs_hit diameter x y) := by
  unfold vs_hit
  infer_instance

/-- The in-grid test as the claim states it: the cell falls strictly inside
the square grid bounds, with the same strict bound on both axes (second
definition, following the spec's words, for comparison with `vs_hit`). -/
def vs_hit_claimed (diameter : Nat) (x y : Int) : Prop :=
  0 ≤ x ∧ x < (diameter : Int) ∧ 0 ≤ y ∧ y < (diameter : Int)

instance (diameter : Nat) (x y : Int) : Decidable (vs_hit_claimed diameter x y) := by
  unfold vs_hit_claimed
  infer_instance

/-- `scale = 4.0f * (vs_diameter * vs_diameter) / (width * height * 255.0f)`. -/
def vs_scale (diameter width height : Nat) : ℚ :=
  4 * ((diameter : ℚ) * (diameter : ℚ)) / ((width : ℚ) * (height : ℚ) * 255)

/-- The cells receiving a `+= scale` in the vectorscope density loop, in
pixel order: each projected pixel whose cell passes `vs_hit` contributes its
cell; pixels failing the test are discarded (clipped, not clamped). -/
def vs_targets (diameter : Nat) (max_diam : ℚ) (chromas : List (ℚ × ℚ)) : List (Int × Int) :=
  chromas.filterMap fun c =>
    if vs_hit diameter (vs_cell_of diameter max_diam c).1 (vs_cell_of diameter max_diam c).2
    then some (vs_cell_of diameter max_diam c) else none

/-- `_lib_histogram_process_vectorscope` as a state transformer.  If no
histogram profile is available it returns at once, touching nothing.
Otherwise: projects the six primaries, folds `max_diam`, stores the
normalized graticule, zeroes a fresh density buffer, accumulates `scale`
per in-grid pixel, and quantizes each cell to 8 bits through the
gamma-shaping `CLAMP(powf(bin, 1/1.5)*255, 0, 255)` (libm `powf` is outside
this module; the whole per-cell quantization is the opaque `gammaQuant`). -/
def lib_histogram_process_vectorscope (hypot : ℚ → ℚ → ℚ) (gammaQuant : ℚ → Nat)
    (profile : Option ProfileInfo) (s : ScopeState) (input : Nat → CFloat)
    (width height : Nat) : ScopeState :=
  match profile with
  | none => s
  | some prof =>
    let raw : Fin 6 → ℚ × ℚ := fun k => prof.proj (vs_primaries k)
    let max_diam := vs_max_diam hypot raw
    let graticule : Fin 6 → CFloat × CFloat := fun k =>
      (.fin ((raw k).1 / max_diam), .fin ((raw k).2 / max_diam))
    let d := s.vectorscope_diameter
    let scale := vs_scale d width height
    let chromas : List (ℚ × ℚ) :=
      (List.range (width * height)).map fun p => prof.proj fun c => input (4 * p + c.val)
    let binned := accumulate scale (fun _ => 0) (vs_targets d max_diam chromas)
    { s with
      vectorscope_graticule := graticule,
      vectorscope_alpha := fun out_y out_x =>
        if out_y < d ∧ out_x < d then gammaQuant (binned ((out_x : Int), (out_y : Int)))
        else s.vectorscope_alpha out_y out_x }

/-- The projected chromaticities of only the pixels inside the ROI's crop
rectangle (second definition, following the spec's words — "for every pixel
in the (optionally cropped) source buffer" — for comparison with the full
pixel sweep the code performs). -/
def vs_chromas_cropped (prof : ProfileInfo) (input : Nat → CFloat) (roi : Roi) :
    List (ℚ × ℚ) :=
  (List.range' roi.crop_y (roi.height - roi.crop_height - roi.crop_y)).flatMap fun y =>
    (List.range' roi.crop_x (roi.width - roi.crop_width - roi.crop_x)).map fun x =>
      prof.proj fun c => input (pixIndex roi.width y x c.val)

/-- The vectorscope pass as the claim describes it: identical to
`lib_histogram_process_vectorscope` except that the density accumulation is
restricted to the crop rectangle (second definition, following the spec's
words, for comparison). -/
def lib_histogram_process_vectorscope_cropped (hypot : ℚ → ℚ → ℚ) (gammaQuant : ℚ → Nat)
    (profile : Option ProfileInfo) (s : ScopeState) (input : Nat → CFloat)
    (roi : Roi) : ScopeState :=
  match profile with
  | none => s
  | some prof =>
    let raw : Fin 6 → ℚ × ℚ := fun k => prof.proj (vs_primaries k)
    let max_diam := vs_max_diam hypot raw
    let graticule : Fin 6 → CFloat × CFloat := fun k =>
      (.fin ((raw k).1 / max_diam), .fin ((raw k).2 / max_diam))
    let d := s.vectorscope_diameter
    let scale := vs_scale d roi.width roi.height
    let chromas := vs_chromas_cropped prof input roi
    let binned := accumulate scale (fun _ => 0) (vs_targets d max_diam chromas)
    { s with
      vectorscope_graticule := graticule,
      vectorscope_alpha := fun out_y out_x =>
        if out_y < d ∧ out_x < d then gammaQuant (binned ((out_x : Int), (out_y : Int)))
        else s.vectorscope_alpha out_y out_x }

/-- `dt_lib_histogram_process`.  A null input buffer is the clear call:
zero the 4×256 counters, set `waveform_width = 0`, set the graticule
sentinel `vectorscope_graticule[0][0] = NAN` (note: `histogram_max` is not
touched).  Otherwise build the ROI — the crop values come from the ambient
colorpicker state, passed here as parameters, already clamped — optionally
substitute the externally colorspace-converted buffer `img_display`
(`img_display ? img_display : input`), and dispatch on the scope type; the
vectorscope branch receives only `width` and `height`, not the ROI. -/
def dt_lib_histogram_process (hypot : ℚ → ℚ → ℚ) (gammaQuant : ℚ → Nat)
    (profile : Option ProfileInfo) (img_display : Option (Nat → CFloat))
    (crop_x crop_y crop_width crop_height : Nat)
    (s : ScopeState) (input : Option (Nat → CFloat)) (width height : Nat) : ScopeState :=
  match input with
  | none =>
    { s with
      histogram := fun _ _ => 0,
      waveform_width := 0,
      vectorscope_graticule := fun k =>
        if k = 0 then (.nan, (s.vectorscope_graticule 0).2)
        else s.vectorscope_graticule k }
  | some buf =>
    let roi : Roi :=
      { width := width, height := height, crop_x := crop_x, crop_y := crop_y,
        crop_width := crop_width, crop_height := crop_height }
    let img := img_display.getD buf
    match s.scope_type with
    | .histogram => lib_histogram_process_histogram s img roi
    | .waveform => lib_histogram_process_waveform s img roi
    | .vectorscope => lib_histogram_process_vectorscope hypot gammaQuant profile s img width height

/-- State-relevant effect of `_vectorscope_view_update`: when a current view
exists (`dt_view_manager_get_current_view` non-null, here the `hasView`
flag), the graticule sentinel `vectorscope_graticule[0][0] = NAN` is set so
an empty scope is drawn immediately; tooltip/button-paint work and the
redraw/reprocess requests are external. -/
def vectorscope_view_update (hasView : Bool) (s : ScopeState) : ScopeState :=
  if hasView then
    { s with
      vectorscope_graticule := fun k =>
        if k = 0 then (.nan, (s.vectorscope_graticule 0).2)
        else s.vectorscope_graticule k }
  else s

/-- `_histogram_scale_update` touches only tooltips, button paints and the
host proxy flag — no engine state. -/
def histogram_scale_update (s : ScopeState) : ScopeState := s

/-- `_waveform_view_update` touches only tooltips, button paints and button
sensitivity — no engine state. -/
def waveform_view_update (s : ScopeState) : ScopeState := s

/-- `_scope_view_clicked`: cycles the sub-mode enum of the current scope
type and runs the matching view-update helper. -/
def scope_view_clicked (hasView : Bool) (s : ScopeState) : ScopeState :=
  match s.scope_type with
  | .histogram => histogram_scale_update { s with histogram_scale := s.histogram_scale.next }
  | .waveform => waveform_view_update { s with waveform_type := s.waveform_type.next }
  | .vectorscope =>
    vectorscope_view_update hasView { s with vectorscope_type := s.vectorscope_type.next }

/-- `_scope_type_update`: runs the view-update helper matching the (already
updated) scope type. -/
def scope_type_update (hasView : Bool) (s : ScopeState) : ScopeState :=
  match s.scope_type with
  | .histogram => histogram_scale_update s
  | .waveform => waveform_view_update s
  | .vectorscope => vectorscope_view_update hasView s

/-- `_scope_type_clicked`: cycles the scope type and runs
`_scope_type_update`. -/
def scope_type_clicked (hasView : Bool) (s : ScopeState) : ScopeState :=
  scope_type_update hasView { s with scope_type := s.scope_type.next }

/-- The bucket index as the claim states it (second definition, from the
spec's words, for comparison): `clamp(round((1 - (8/9)*value) * (height-1)),
0, height-1)`. -/
def wf_out_y_claimed (waveform_height : Nat) (value : ℚ) : Nat :=
  (min (max (round ((1 - 8 / 9 * value) * ((waveform_height - 1 : Nat) : ℚ))) 0)
    ((waveform_height : Int) - 1)).toNat

/-- The bucket index with rounding replaced by truncation toward zero (the
amended form of the claim): `clamp(trunc((1 - (8/9)*value) * (height-1)),
0, height-1)`. -/
def wf_out_y_floor (waveform_height : Nat) (value : ℚ) : Nat :=
  (min (max ⌊(1 - 8 / 9 * value) * ((waveform_height - 1 : Nat) : ℚ)⌋ 0)
    ((waveform_height : Int) - 1)).toNat

/-- Squared Euclidean norm of a rational point. -/
def sqNorm (p : ℚ × ℚ) : ℚ := p.1 ^ 2 + p.2 ^ 2

/-- Squared Euclidean norm of a stored graticule point; a point carrying a
non-finite coordinate has no finite norm and contributes 0. -/
def sqNormC : CFloat × CFloat → ℚ
  | (.fin a, .fin b) => a ^ 2 + b ^ 2
  | _ => 0

/-- Fold of `max` over the six graticule slots, starting at 0 — the shape of
the `max_diam` loop, reused to state the normalization property. -/
def foldMax6 (f : Fin 6 → ℚ) : ℚ :=
  six.foldl (fun acc k => max acc (f k)) 0

/-- Default engine state used to instantiate witnesses: the configuration
constants match the initialization defaults of the module (waveform height
175, max width 360, vectorscope diameter 512). -/
def defaultState : ScopeState where
  histogram := fun _ _ => 0
  histogram_max := 0
  waveform_linear := fun _ => 0
  waveform_width := 0
  waveform_height := 175
  waveform_max_width := 360
  vectorscope_alpha := fun _ _ => 0
  vectorscope_diameter := 512
  vectorscope_graticule := fun _ => (.fin 0, .fin 0)
  scope_type := .histogram
  histogram_scale := .logarithmic
  waveform_type := .overlaid
  vectorscope_type := .cieluv

/-- A prior state with a nonzero `histogram_max`, as left behind by an
earlier histogram-mode process call. -/
def clearCexState : ScopeState :=
  { defaultState with histogram_max := 7, waveform_width := 5 }

/-- Concrete stand-in for the opaque profile projection, used to instantiate
counterexamples: reads channel 0 of the pixel and uses it as both
chromaticity coordinates. -/
def chan0Prof : ProfileInfo where
  proj := fun px =>
    match px 0 with
    | .fin q => (q, q)
    | _ => (0, 0)

/-- Concrete 2×1 input buffer: pixel 0 is black, pixel 1 carries 10 in
channel 0. -/
def c6Input : Nat → CFloat := fun i => if i = 4 then .fin 10 else .fin 0

/-- Concrete gamma-quantization stand-in distinguishing an empty density
cell from a written one. -/
def c6Gq : ℚ → Nat := fun q => if q = 0 then 0 else 1

/-- A vectorscope-mode state with diameter 4. -/
def c6State : ScopeState :=
  { defaultState with scope_type := .vectorscope, vectorscope_diameter := 4 }

/-- The ROI of the C6 counterexample: 2×1 buffer with `crop_x = 1`, so pixel
0 lies outside the crop rectangle. -/
def c6Roi : Roi := ⟨2, 1, 1, 0, 0, 0⟩

/-- Constant projection for the C7 witness: every color projects to the
rational point (3, 4), whose distance from the origin is exactly 5. -/
def c7Prof : ProfileInfo where
  proj := fun _ => (3, 4)

/-- Stand-in for libm `hypotf` in the C7 witness: the constant 5, the true
Euclidean norm of every projected point (3, 4). -/
def c7Hy : ℚ → ℚ → ℚ := fun _ _ => 5

/-- A vectorscope-mode state whose graticule holds finite nonzero
coordinates left by an earlier computation. -/
def c9State : ScopeState :=
  { defaultState with
    scope_type := .vectorscope,
    vectorscope_graticule := fun _ => (.fin 5, .fin 5) }

/-! ## Helper lemmas -/

/-- A loop of `+=`s adds `scale` to a cell once per occurrence of the cell
among the written targets. -/
theorem accumulate_eq_count {κ : Type} [DecidableEq κ] (scale : ℚ) (l : List κ)
    (b : κ → ℚ) (i : κ) :
    accumulate scale b l i
      = b i + scale * ((l.filter fun t => decide (t = i)).length : ℚ) := by
  induction l generalizing b with
  | nil => simp [accumulate]
  | cons t ts ih =>
    simp only [accumulate, List.foldl_cons] at ih ⊢
    rw [ih, List.filter_cons]
    by_cases hit : t = i
    · rw [if_pos (by simpa using hit), List.length_cons]
      simp only [bump, if_pos hit.symm]
      push_cast
      ring
    · rw [if_neg (by simpa using hit)]
      have hne : ¬ i = t := fun hc => hit hc.symm
      simp only [bump, if_neg hne]

/-- The nested maximum over the three per-channel bin maxima equals the
maximum single-bin count over channels 0..2 and all 256 bins. -/
theorem max3_eq_sup (hist : Fin 4 → Fin 256 → Nat) :
    max (max (dt_histogram_max_helper hist 0) (dt_histogram_max_helper hist 1))
        (dt_histogram_max_helper hist 2)
      = Finset.univ.sup fun p : Fin 3 × Fin 256 => hist p.1.castSucc p.2 := by
  apply le_antisymm
  · have h0 : dt_histogram_max_helper hist 0
        ≤ Finset.univ.sup fun p : Fin 3 × Fin 256 => hist p.1.castSucc p.2 :=
      Finset.sup_le fun b _ =>
        Finset.le_sup (f := fun p : Fin 3 × Fin 256 => hist p.1.castSucc p.2)
          (Finset.mem_univ ((0 : Fin 3), b))
    have h1 : dt_histogram_max_helper hist 1
        ≤ Finset.univ.sup fun p : Fin 3 × Fin 256 => hist p.1.castSucc p.2 :=
      Finset.sup_le fun b _ =>
        Finset.le_sup (f := fun p : Fin 3 × Fin 256 => hist p.1.castSucc p.2)
          (Finset.mem_univ ((1 : Fin 3), b))
    have h2 : dt_histogram_max_helper hist 2
        ≤ Finset.univ.sup fun p : Fin 3 × Fin 256 => hist p.1.castSucc p.2 :=
      Finset.sup_le fun b _ =>
        Finset.le_sup (f := fun p : Fin 3 × Fin 256 => hist p.1.castSucc p.2)
          (Finset.mem_univ ((2 : Fin 3), b))
    exact max_le (max_le h0 h1) h2
  · apply Finset.sup_le
    rintro ⟨ch, b⟩ -
    have hle : ∀ c : Fin 4, hist c b ≤ dt_histogram_max_helper hist c := fun c =>
      Finset.le_sup (f := fun j : Fin 256 => hist c j) (Finset.mem_univ b)
    fin_cases ch
    · exact le_max_of_le_left (le_max_of_le_left (hle 0))
    · exact le_max_of_le_left (le_max_of_le_right (hle 1))
    · exact le_max_of_le_right (hle 2)

theorem ceilfDiv_eq_ceilDiv (a b : Nat) : ceilfDiv a b = a ⌈/⌉ b :=
  (Nat.ceilDiv_eq_add_pred_div a b).symm

theorem ceilfDiv_pos (a b : Nat) (ha : 0 < a) (hb : 0 < b) : 0 < ceilfDiv a b := by
  unfold ceilfDiv
  have := (Nat.le_div_iff_mul_le hb).mpr (show 1 * b ≤ a + b - 1 by omega)
  omega

/-- Key bound behind the waveform sizing: binning a span of `s` columns with
the integral bin width `ceil(s/m)` produces at most `m` output columns. -/
theorem ceilfDiv_ceilfDiv_le (s m : Nat) (hs : 0 < s) (hm : 0 < m) :
    ceilfDiv s (ceilfDiv s m) ≤ m := by
  have hb : 0 < ceilfDiv s m := ceilfDiv_pos s m hs hm
  rw [ceilfDiv_eq_ceilDiv] at hb ⊢
  rw [ceilfDiv_eq_ceilDiv]
  have h1 : s ≤ m • (s ⌈/⌉ m) := le_smul_ceilDiv hm
  refine (ceilDiv_le_iff_le_smul hb).mpr ?_
  simpa [smul_eq_mul, mul_comm] using h1

/-! ## Claim C1 -/

/-- C1 (amended): the clear call (`process` with a null input buffer) zeroes
all 4×256 histogram bins, sets `waveform_width = 0` and sets graticule point
0's first coordinate to NaN, for every prior state — but it does not touch
`histogram_max`, which keeps its prior value. -/
theorem claim1_clear_state (hy : ℚ → ℚ → ℚ) (gq : ℚ → Nat) (prof : Option ProfileInfo)
    (img : Option (Nat → CFloat)) (cx cy cw ch : Nat) (s : ScopeState) (w h : Nat) :
    dt_lib_histogram_process hy gq prof img cx cy cw ch s none w h
      = { s with
          histogram := fun _ _ => 0,
          waveform_width := 0,
          vectorscope_graticule := fun k =>
            if k = 0 then (.nan, (s.vectorscope_graticule 0).2)
            else s.vectorscope_graticule k }
    ∧ ((dt_lib_histogram_process hy gq prof img cx cy cw ch s none w h).vectorscope_graticule
        0).1 = CFloat.nan
    ∧ (dt_lib_histogram_process hy gq prof img cx cy cw ch s none w h).histogram_max
        = s.histogram_max :=
  ⟨rfl, by simp [dt_lib_histogram_process], rfl⟩

/-- C1 counterexample: a clear call on a prior state whose `histogram_max`
is 7 leaves `histogram_max` at 7, not 0. -/
theorem claim1_cex :
    (dt_lib_histogram_process (fun _ _ => 0) (fun _ => 0) none none 0 0 0 0
        clearCexState none 0 0).histogram_max = 7 ∧ (7 : Nat) ≠ 0 :=
  ⟨rfl, by decide⟩

/-! ## Claim C2 -/

/-- C2: after a histogram-mode process call on a non-null input,
`histogram_max` equals the maximum single-bin count over channels 0, 1, 2 of
the freshly recomputed 256-bin counters (channel 3 ignored), and both the
counters and the maximum are functions of the input and ROI alone —
recomputed from scratch, independent of any prior state. -/
theorem claim2_histogram_max (s : ScopeState) (input : Nat → CFloat) (roi : Roi) :
    (lib_histogram_process_histogram s input roi).histogram_max
      = Finset.univ.sup (fun p : Fin 3 × Fin 256 =>
          (lib_histogram_process_histogram s input roi).histogram p.1.castSucc p.2)
    ∧ ∀ s2 : ScopeState,
        (lib_histogram_process_histogram s2 input roi).histogram
          = (lib_histogram_process_histogram s input roi).histogram
        ∧ (lib_histogram_process_histogram s2 input roi).histogram_max
          = (lib_histogram_process_histogram s input roi).histogram_max :=
  ⟨max3_eq_sup (dt_histogram_helper input roi), fun _ => ⟨rfl, rfl⟩⟩

/-! ## Claim C3 -/

/-- C3: the waveform binner derives `sample_width = max(1, width -
crop_width - crop_x)`, `bin_width = ceil(sample_width /
waveform_max_width)`, and the resulting `waveform_width` equals
`ceil(sample_width / bin_width)` and never exceeds `waveform_max_width`. -/
theorem claim3_waveform_width (s : ScopeState) (input : Nat → CFloat) (roi : Roi)
    (hmax : 0 < s.waveform_max_width) :
    sampleWidth roi = max 1 (roi.width - roi.crop_width - roi.crop_x)
    ∧ binWidth s.waveform_max_width roi
        = ceilfDiv (sampleWidth roi) s.waveform_max_width
    ∧ (lib_histogram_process_waveform s input roi).waveform_width
        = ceilfDiv (sampleWidth roi) (binWidth s.waveform_max_width roi)
    ∧ (lib_histogram_process_waveform s input roi).waveform_width
        ≤ s.waveform_max_width := by
  refine ⟨rfl, rfl, rfl, ?_⟩
  have hs : 0 < sampleWidth roi := by
    unfold sampleWidth
    omega
  exact ceilfDiv_ceilfDiv_le (sampleWidth roi) s.waveform_max_width hs hmax

/-- Witness for C3 at a concrete state and ROI (`waveform_max_width = 360`,
a 720-wide uncropped buffer). -/
theorem claim3_waveform_width_witness :
    0 < defaultState.waveform_max_width
    ∧ (sampleWidth ⟨720, 480, 0, 0, 0, 0⟩
          = max 1 (720 - 0 - 0)
        ∧ binWidth defaultState.waveform_max_width ⟨720, 480, 0, 0, 0, 0⟩
            = ceilfDiv (sampleWidth ⟨720, 480, 0, 0, 0, 0⟩) defaultState.waveform_max_width
        ∧ (lib_histogram_process_waveform defaultState (fun _ => .fin 0)
              ⟨720, 480, 0, 0, 0, 0⟩).waveform_width
            = ceilfDiv (sampleWidth ⟨720, 480, 0, 0, 0, 0⟩)
                (binWidth defaultState.waveform_max_width ⟨720, 480, 0, 0, 0, 0⟩)
        ∧ (lib_histogram_process_waveform defaultState (fun _ => .fin 0)
              ⟨720, 480, 0, 0, 0, 0⟩).waveform_width
            ≤ defaultState.waveform_max_width) :=
  ⟨by decide, claim3_waveform_width defaultState (fun _ => .fin 0) ⟨720, 480, 0, 0, 0, 0⟩
    (by decide)⟩

/-! ## Claim C8 -/

/-- C8: when no color profile is available, the vectorscope pass returns at
once without modifying any state — density buffer and graticule keep the
previous computation's contents — and without surfacing a failure. -/
theorem claim8_noop (hy : ℚ → ℚ → ℚ) (gq : ℚ → Nat) (s : ScopeState)
    (input : Nat → CFloat) (w h : Nat) :
    lib_histogram_process_vectorscope hy gq none s input w h = s :=
  rfl

/-! ## Claim C10 -/

/-- C10: for every float channel value — negative, above 9/8, infinite or
NaN — the waveform bucket index stays within `[0, waveform_height - 1]`, so
the accumulation write lands inside the
`waveform_width × waveform_height × 4` linear buffer. -/
theorem claim10_bounds (h wfw out_x k : Nat) (v : CFloat)
    (hh : 0 < h) (hx : out_x < wfw) (hk : k < 3) :
    wf_out_y h v ≤ h - 1
    ∧ wfIndex wfw (wf_out_y h v) out_x k < 4 * wfw * h := by
  have h1 : wf_out_y h v ≤ h - 1 := by
    unfold wf_out_y
    dsimp only
    split
    · omega
    · exact min_le_right _ _
  refine ⟨h1, ?_⟩
  unfold wfIndex
  have h2 : wfw * wf_out_y h v ≤ wfw * (h - 1) := Nat.mul_le_mul_left _ h1
  have h3 : wfw * h = wfw * (h - 1) + wfw := by
    have h4 : h - 1 + 1 = h := Nat.succ_pred_eq_of_pos hh
    calc wfw * h = wfw * ((h - 1) + 1) := by rw [h4]
    _ = wfw * (h - 1) + wfw := by ring
  have h5 : 4 * wfw * h = 4 * (wfw * h) := by ring
  omega

/-- Witness for C10 at height 2, width 1, column 0, channel 1, on a pixel
value of negative infinity (whose bucket is the clamped top index). -/
theorem claim10_bounds_witness :
    0 < 2 ∧ 0 < 1 ∧ 1 < 3
    ∧ (wf_out_y 2 CFloat.negInf ≤ 2 - 1
        ∧ wfIndex 1 (wf_out_y 2 CFloat.negInf) 0 1 < 4 * 1 * 2) :=
  ⟨by decide, by decide, by decide,
    claim10_bounds 2 1 0 1 CFloat.negInf (by decide) (by decide) (by decide)⟩

/-! ## Claim C4 -/

/-- C4 (amended): for every finite pixel channel value the waveform bucket
index equals `clamp(trunc((1 - (8/9)*value) * (height-1)), 0, height-1)` —
truncation toward zero (the C `(size_t)` cast), not rounding; a NaN value
maps to bucket 0 rather than being skipped; and the linear buffer receives
the fixed amount `scale = (waveform_height/40) / (sample_height *
bin_width)` once per contributing pixel write, on top of the zero-filled
significant region. -/
theorem claim4_bucket (h : Nat) (q : ℚ) (s : ScopeState) (input : Nat → CFloat)
    (roi : Roi) :
    wf_out_y h (.fin q) = wf_out_y_floor h q
    ∧ wf_out_y h .nan = 0
    ∧ wfScale s.waveform_height s.waveform_max_width roi
        = ((s.waveform_height : ℚ) / 40)
            / ((sampleHeight roi : ℚ) * (binWidth s.waveform_max_width roi : ℚ))
    ∧ ∀ idx : Nat,
        (lib_histogram_process_waveform s input roi).waveform_linear idx
          = (if idx < 4 * ceilfDiv (sampleWidth roi) (binWidth s.waveform_max_width roi)
                  * s.waveform_height
             then 0 else s.waveform_linear idx)
            + wfScale s.waveform_height s.waveform_max_width roi
              * (((wf_targets input roi s.waveform_height
                    (ceilfDiv (sampleWidth roi) (binWidth s.waveform_max_width roi))
                    (binWidth s.waveform_max_width roi)).filter
                      fun t => decide (t = idx)).length : ℚ) := by
  refine ⟨?_, rfl, rfl, ?_⟩
  · unfold wf_out_y wf_out_y_floor
    dsimp only
    simp only [CFloat.mul, CFloat.sub, CFloat.isNan, CFloat.fmax, CFloat.toSizeT,
      Bool.false_eq_true, if_false]
    have hfl : ⌊max ((1 - 8 / 9 * q) * ((h - 1 : Nat) : ℚ)) 0⌋
        = max ⌊(1 - 8 / 9 * q) * ((h - 1 : Nat) : ℚ)⌋ 0 := by
      have hmono := (Int.floor_mono (α := ℚ)).map_max
        (a := (1 - 8 / 9 * q) * ((h - 1 : Nat) : ℚ)) (b := 0)
      simpa using hmono
    rw [hfl]
    omega
  · intro idx
    exact accumulate_eq_count _ _ _ _

/-- C4 counterexample: at `waveform_height = 10` and pixel value 1/32 the
scaled position is 8.75; the code's truncating cast yields bucket 8, while
the claimed rounding formula yields bucket 9. -/
theorem claim4_cex :
    wf_out_y 10 (.fin (1 / 32)) = 8 ∧ wf_out_y_claimed 10 (1 / 32) = 9 := by
  constructor
  · unfold wf_out_y
    dsimp only
    simp only [CFloat.mul, CFloat.sub, CFloat.isNan, CFloat.fmax, CFloat.toSizeT,
      Bool.false_eq_true, if_false]
    have e1 : max (((1 : ℚ) - 8 / 9 * (1 / 32)) * ((10 - 1 : Nat) : ℚ)) 0 = 35 / 4 := by
      norm_num
    rw [e1]
    have e2 : ⌊(35 / 4 : ℚ)⌋ = 8 := by norm_num
    rw [e2]
    decide
  · unfold wf_out_y_claimed
    have e3 : round (((1 : ℚ) - 8 / 9 * (1 / 32)) * ((10 - 1 : Nat) : ℚ)) = 9 := by
      rw [round_eq]
      norm_num
    rw [e3]
    decide

/-! ## Claim C5 -/

/-- A cell is written by the density loop once per pixel whose projected
cell is that cell, and only when the cell passes the in-grid test; pixels
failing the test contribute nowhere. -/
theorem filter_vs_targets (d : Nat) (md : ℚ) (l : List (ℚ × ℚ)) (p : Int × Int) :
    ((vs_targets d md l).filter fun t => decide (t = p)).length
      = if vs_hit d p.1 p.2 then
          (l.filter fun c => decide (vs_cell_of d md c = p)).length
        else 0 := by
  induction l with
  | nil => simp [vs_targets]
  | cons c tl ih =>
    simp only [vs_targets, List.filterMap_cons] at ih ⊢
    by_cases hc : vs_hit d (vs_cell_of d md c).1 (vs_cell_of d md c).2
    · by_cases hp : vs_cell_of d md c = p
      · subst hp
        simp [hc, List.filter_cons, ih]
      · simp [hc, hp, List.filter_cons, ih]
    · by_cases hp : vs_cell_of d md c = p
      · subst hp
        simp [hc, List.filter_cons, ih]
      · simp [hc, hp, List.filter_cons, ih]

/-- C5 (amended): every projected pixel is mapped to its grid cell via
`cell = diameter * (coordinate / max_diam + 0.5)` per axis (truncating
cast), and the fixed `scale = 4 * diameter^2 / (pixelCount * 255)` is added
to that cell exactly when the cell passes the code's asymmetric in-grid
test — `0 ≤ x < diameter-1` strictly on the x axis but `0 ≤ y ≤ diameter-1`
on the y axis; every pixel whose cell fails the test is discarded, not
clamped. -/
theorem claim5_density (d w h : Nat) (md : ℚ) (chromas : List (ℚ × ℚ)) (x y : Int) :
    accumulate (vs_scale d w h) (fun _ => 0) (vs_targets d md chromas) (x, y)
      = (if vs_hit d x y then
          vs_scale d w h
            * ((chromas.filter fun c => decide (vs_cell_of d md c = (x, y))).length : ℚ)
        else 0)
    ∧ vs_scale d w h = 4 * ((d : ℚ) * (d : ℚ)) / ((w : ℚ) * (h : ℚ) * 255) := by
  refine ⟨?_, rfl⟩
  rw [accumulate_eq_count, filter_vs_targets]
  dsimp only
  split_ifs with hh
  · ring
  · ring

/-- C5 counterexample: with diameter 4 and `max_diam = 1`, the chromaticity
pair (3/10, -2/5) lands on cell (3, 0), which is strictly inside the 4×4
grid (the claimed uniform bound), yet the code's test rejects it (the x axis
requires `out_x < diameter-1 = 3`) and the pixel leaves the density buffer
untouched. -/
theorem claim5_cex :
    vs_hit_claimed 4 (vs_cell 4 1 (3 / 10)) (vs_cell 4 1 (-2 / 5))
    ∧ ¬ vs_hit 4 (vs_cell 4 1 (3 / 10)) (vs_cell 4 1 (-2 / 5))
    ∧ accumulate (vs_scale 4 1 1) (fun _ => 0)
        (vs_targets 4 1 [((3 / 10 : ℚ), (-2 / 5 : ℚ))]) (3, 0) = 0 := by
  have hx : vs_cell 4 1 (3 / 10) = 3 := by
    unfold vs_cell truncInt
    have e1 : ((4 : Nat) : ℚ) * ((3 / 10) / 1 + 1 / 2) = 16 / 5 := by norm_num
    rw [e1, if_pos (by norm_num)]
    norm_num
  have hy : vs_cell 4 1 (-2 / 5) = 0 := by
    unfold vs_cell truncInt
    have e1 : ((4 : Nat) : ℚ) * ((-2 / 5) / 1 + 1 / 2) = 2 / 5 := by norm_num
    rw [e1, if_pos (by norm_num)]
    norm_num
  refine ⟨?_, ?_, ?_⟩
  · rw [hx, hy]
    decide
  · rw [hx, hy]
    decide
  · have ht : vs_targets 4 1 [((3 / 10 : ℚ), (-2 / 5 : ℚ))] = [] := by
      simp only [vs_targets, List.filterMap_cons, List.filterMap_nil, vs_cell_of, hx, hy]
      rw [if_neg (by decide : ¬ vs_hit 4 (3 : Int) (0 : Int))]
    rw [ht]
    rfl

/-! ## Claim C6 -/

/-- C6 (amended): when the selected mode is vectorscope, the density
accumulation analyzes every pixel of the full width-by-height buffer: the
dispatcher hands the vectorscope pass only `width` and `height`, never the
ROI, so the result is independent of the crop rectangle (unlike the
histogram and waveform binners, which honor it). -/
theorem claim6_crop (hy : ℚ → ℚ → ℚ) (gq : ℚ → Nat) (prof : Option ProfileInfo)
    (img : Option (Nat → CFloat)) (cx cy cw ch cx2 cy2 cw2 ch2 : Nat)
    (s : ScopeState) (input : Nat → CFloat) (w h : Nat)
    (hvs : s.scope_type = .vectorscope) :
    dt_lib_histogram_process hy gq prof img cx cy cw ch s (some input) w h
      = dt_lib_histogram_process hy gq prof img cx2 cy2 cw2 ch2 s (some input) w h := by
  simp only [dt_lib_histogram_process, hvs]

/-- Witness for C6 (amended) at a concrete vectorscope-mode state: a
colorpicker crop of `crop_x = 1` and an uncropped call produce identical
results. -/
theorem claim6_crop_witness :
    c6State.scope_type = ScopeType.vectorscope
    ∧ dt_lib_histogram_process (fun a b => max a b) c6Gq (some chan0Prof) none 1 0 0 0
        c6State (some c6Input) 2 1
      = dt_lib_histogram_process (fun a b => max a b) c6Gq (some chan0Prof) none 0 0 0 0
        c6State (some c6Input) 2 1 :=
  ⟨rfl, claim6_crop (fun a b => max a b) c6Gq (some chan0Prof) none 1 0 0 0 0 0 0 0
    c6State c6Input 2 1 rfl⟩

/-- C6 counterexample: on a 2×1 buffer whose pixel 0 (black, projecting to
the in-grid cell (2,2)) lies outside the crop rectangle `crop_x = 1`, the
process call still deposits density at (2,2) — visible through the
quantized alpha — while the crop-restricted variant the claim describes
leaves that cell empty. -/
theorem claim6_cex :
    (dt_lib_histogram_process (fun a b => max a b) c6Gq (some chan0Prof) none 1 0 0 0
        c6State (some c6Input) 2 1).vectorscope_alpha 2 2 = 1
    ∧ (lib_histogram_process_vectorscope_cropped (fun a b => max a b) c6Gq (some chan0Prof)
        c6State c6Input c6Roi).vectorscope_alpha 2 2 = 0 := by
  have v0 : ((0 : Fin 6) : Nat) = 0 := rfl
  have v1 : ((1 : Fin 6) : Nat) = 1 := rfl
  have v2 : ((2 : Fin 6) : Nat) = 2 := rfl
  have v3 : ((3 : Fin 6) : Nat) = 3 := rfl
  have v4 : ((4 : Fin 6) : Nat) = 4 := rfl
  have v5 : ((5 : Fin 6) : Nat) = 5 := rfl
  have hmd : vs_max_diam (fun a b => max a b) (fun k => chan0Prof.proj (vs_primaries k)) = 1 := by
    simp only [vs_max_diam, six, chan0Prof, vs_primaries, vs_primaries_q, List.foldl_cons,
      List.foldl_nil, v0, v1, v2, v3, v4, v5]
    norm_num [List.getD]
  have hc0 : vs_cell 4 1 0 = 2 := by
    unfold vs_cell truncInt
    have e : ((4 : Nat) : ℚ) * ((0 : ℚ) / 1 + 1 / 2) = 2 := by norm_num
    rw [e, if_pos (by norm_num)]
    norm_num
  have hc10 : vs_cell 4 1 10 = 42 := by
    unfold vs_cell truncInt
    have e : ((4 : Nat) : ℚ) * ((10 : ℚ) / 1 + 1 / 2) = 42 := by norm_num
    rw [e, if_pos (by norm_num)]
    norm_num
  have w0 : ((0 : Fin 4) : Nat) = 0 := rfl
  have htar : vs_targets 4 1 [((0 : ℚ), (0 : ℚ)), ((10 : ℚ), (10 : ℚ))]
      = [((2 : Int), (2 : Int))] := by
    simp only [vs_targets, List.filterMap_cons, List.filterMap_nil, vs_cell_of, hc0, hc10]
    rw [if_pos (by decide : vs_hit 4 (2 : Int) (2 : Int)),
      if_neg (by decide : ¬ vs_hit 4 (42 : Int) (42 : Int))]
  have htar10 : vs_targets 4 1 [((10 : ℚ), (10 : ℚ))] = [] := by
    simp only [vs_targets, List.filterMap_cons, List.filterMap_nil, vs_cell_of, hc10]
    rw [if_neg (by decide : ¬ vs_hit 4 (42 : Int) (42 : Int))]
  constructor
  · simp only [dt_lib_histogram_process, c6State, defaultState,
      lib_histogram_process_vectorscope, Option.getD, hmd]
    norm_num
    have hchrom : List.map (fun p => chan0Prof.proj fun c => c6Input (4 * p + (c : Nat)))
        (List.range 2) = [((0 : ℚ), (0 : ℚ)), ((10 : ℚ), (10 : ℚ))] := by
      simp [List.range_succ, chan0Prof, c6Input, w0]
    rw [hchrom, htar]
    simp only [accumulate, List.foldl_cons, List.foldl_nil, bump, if_pos rfl]
    norm_num [c6Gq, vs_scale]
  · have hchromc : vs_chromas_cropped chan0Prof c6Input c6Roi = [((10 : ℚ), (10 : ℚ))] := by
      have hr1 : List.range' (0 : Nat) (1 - 0 - 0) = [0] := rfl
      have hr2 : List.range' (1 : Nat) (2 - 0 - 1) = [1] := rfl
      simp only [vs_chromas_cropped, c6Roi, hr1, hr2, List.flatMap_cons, List.flatMap_nil,
        List.map_cons, List.map_nil, List.append_nil]
      simp [chan0Prof, c6Input, pixIndex, w0]
    have hw : c6Roi.width = 2 := rfl
    have hht : c6Roi.height = 1 := rfl
    simp only [lib_histogram_process_vectorscope_cropped, c6State, defaultState, hmd, hw, hht,
      hchromc, htar10]
    norm_num [accumulate, c6Gq, List.foldl_nil]

/-! ## Claim C7 -/

/-- Dividing every entry of a running-max fold by a positive constant
divides the fold. -/
theorem foldl_max_div (l : List (Fin 6)) (f : Fin 6 → ℚ) (c : ℚ) (hc : 0 < c) (a : ℚ) :
    l.foldl (fun acc k => max acc (f k / c)) (a / c)
      = (l.foldl (fun acc k => max acc (f k)) a) / c := by
  induction l generalizing a with
  | nil => rfl
  | cons x xs ih =>
    simp only [List.foldl_cons]
    have hstep : max (a / c) (f x / c) = (max a (f x)) / c := by
      rcases le_total a (f x) with hle | hle
      · rw [max_eq_right hle, max_eq_right ((div_le_div_iff_of_pos_right hc).mpr hle)]
      · rw [max_eq_left hle, max_eq_left ((div_le_div_iff_of_pos_right hc).mpr hle)]
    rw [hstep]
    exact ih _

/-- Squaring a running-max fold of nonnegative entries squares every
entry. -/
theorem foldl_max_sq (l : List (Fin 6)) (f : Fin 6 → ℚ) (hf : ∀ k, 0 ≤ f k) :
    ∀ a : ℚ, 0 ≤ a →
      (l.foldl (fun acc k => max acc (f k)) a) ^ 2
        = l.foldl (fun acc k => max acc (f k ^ 2)) (a ^ 2) := by
  induction l with
  | nil => intro a _; rfl
  | cons x xs ih =>
    intro a ha
    simp only [List.foldl_cons]
    have hstep : (max a (f x)) ^ 2 = max (a ^ 2) (f x ^ 2) := by
      rcases le_total a (f x) with hle | hle
      · rw [max_eq_right hle, max_eq_right (by nlinarith [hf x])]
      · rw [max_eq_left hle, max_eq_left (by nlinarith [hf x])]
    rw [ih (max a (f x)) (le_trans ha (le_max_left a (f x))), hstep]

/-- C7: after a vectorscope process call with an available profile, the six
graticule points are the raw projections of the pure primaries/secondaries
divided by `max_diam`; whenever the externally supplied `hypotf` returns the
true Euclidean norm at the six projections and `max_diam` is positive, the
maximum squared radius over the six stored points is exactly 1 (so the
maximum of `hypot(x,y)` is 1), under either projection mode — the theorem is
parametric in the opaque projection, which covers both modes. -/
theorem claim7_graticule (hy : ℚ → ℚ → ℚ) (gq : ℚ → Nat) (prof : ProfileInfo)
    (s : ScopeState) (input : Nat → CFloat) (w h : Nat)
    (Hh : ∀ k : Fin 6,
      0 ≤ hy (prof.proj (vs_primaries k)).1 (prof.proj (vs_primaries k)).2
      ∧ hy (prof.proj (vs_primaries k)).1 (prof.proj (vs_primaries k)).2 ^ 2
          = sqNorm (prof.proj (vs_primaries k)))
    (Hpos : 0 < vs_max_diam hy fun k => prof.proj (vs_primaries k)) :
    foldMax6 (fun k =>
      sqNormC ((lib_histogram_process_vectorscope hy gq (some prof) s input
        w h).vectorscope_graticule k)) = 1 := by
  set m := vs_max_diam hy (fun k => prof.proj (vs_primaries k)) with hmdef
  have hm2 : 0 < m ^ 2 := pow_pos Hpos 2
  have hgr : (fun k => sqNormC ((lib_histogram_process_vectorscope hy gq (some prof) s input
      w h).vectorscope_graticule k))
      = fun k => sqNorm (prof.proj (vs_primaries k)) / m ^ 2 := by
    funext k
    show sqNormC (.fin ((prof.proj (vs_primaries k)).1 / m),
        .fin ((prof.proj (vs_primaries k)).2 / m)) = _
    simp only [sqNormC, sqNorm]
    rw [div_pow, div_pow, div_add_div_same]
  rw [hgr]
  have hdiv : foldMax6 (fun k => sqNorm (prof.proj (vs_primaries k)) / m ^ 2)
      = foldMax6 (fun k => sqNorm (prof.proj (vs_primaries k))) / m ^ 2 := by
    unfold foldMax6
    conv_lhs => rw [show (0 : ℚ) = 0 / m ^ 2 by rw [zero_div]]
    exact foldl_max_div six _ (m ^ 2) hm2 0
  have hsq : m ^ 2 = foldMax6 fun k => sqNorm (prof.proj (vs_primaries k)) := by
    have hnn : ∀ k : Fin 6,
        0 ≤ hy (prof.proj (vs_primaries k)).1 (prof.proj (vs_primaries k)).2 :=
      fun k => (Hh k).1
    have h1 : m ^ 2 = six.foldl (fun acc k => max acc
        (hy (prof.proj (vs_primaries k)).1 (prof.proj (vs_primaries k)).2 ^ 2)) (0 ^ 2) := by
      rw [hmdef]
      unfold vs_max_diam
      exact foldl_max_sq six _ hnn 0 le_rfl
    rw [h1]
    have hfun : (fun (acc : ℚ) (k : Fin 6) => max acc
        (hy (prof.proj (vs_primaries k)).1 (prof.proj (vs_primaries k)).2 ^ 2))
        = fun acc k => max acc (sqNorm (prof.proj (vs_primaries k))) := by
      funext acc k
      rw [(Hh k).2]
    unfold foldMax6
    rw [hfun]
    norm_num
  rw [hdiv, ← hsq, div_self (ne_of_gt hm2)]

/-- Witness for C7 with a concrete projection sending every color to (3, 4)
and `hypotf` returning its true norm 5. -/
theorem claim7_graticule_witness :
    (∀ k : Fin 6,
      0 ≤ c7Hy (c7Prof.proj (vs_primaries k)).1 (c7Prof.proj (vs_primaries k)).2
      ∧ c7Hy (c7Prof.proj (vs_primaries k)).1 (c7Prof.proj (vs_primaries k)).2 ^ 2
          = sqNorm (c7Prof.proj (vs_primaries k)))
    ∧ 0 < vs_max_diam c7Hy (fun k => c7Prof.proj (vs_primaries k))
    ∧ foldMax6 (fun k =>
        sqNormC ((lib_histogram_process_vectorscope c7Hy (fun _ => 0) (some c7Prof)
          defaultState (fun _ => .fin 0) 1 1).vectorscope_graticule k)) = 1 := by
  have hH : ∀ k : Fin 6,
      0 ≤ c7Hy (c7Prof.proj (vs_primaries k)).1 (c7Prof.proj (vs_primaries k)).2
      ∧ c7Hy (c7Prof.proj (vs_primaries k)).1 (c7Prof.proj (vs_primaries k)).2 ^ 2
          = sqNorm (c7Prof.proj (vs_primaries k)) := by
    intro k
    constructor
    · norm_num [c7Hy]
    · norm_num [c7Hy, c7Prof, sqNorm]
  have hP : 0 < vs_max_diam c7Hy (fun k => c7Prof.proj (vs_primaries k)) := by
    simp only [vs_max_diam, six, List.foldl_cons, List.foldl_nil, c7Hy]
    norm_num
  exact ⟨hH, hP, claim7_graticule c7Hy (fun _ => 0) c7Prof defaultState (fun _ => .fin 0)
    1 1 hH hP⟩

/-! ## Claim C9 -/

/-- C9 (amended): the histogram log/linear toggle and the waveform
overlaid/parade toggle mutate only their enum field — in particular the
histogram bin counts are never altered by the scale toggle — but the
vectorscope projection toggle, and a scope-type cycle that lands on
vectorscope, additionally reset graticule point 0's first coordinate to the
NaN sentinel when a view is active; histogram bins, `histogram_max`, the
waveform buffers and width, and the vectorscope density buffer are left
unchanged by every switch. -/
theorem claim9_modes (hv : Bool) (s : ScopeState) :
    scope_view_clicked hv s
      = (match s.scope_type with
         | ScopeType.histogram => { s with histogram_scale := s.histogram_scale.next }
         | ScopeType.waveform => { s with waveform_type := s.waveform_type.next }
         | ScopeType.vectorscope =>
           { s with
             vectorscope_type := s.vectorscope_type.next,
             vectorscope_graticule :=
               if hv then
                 fun k => if k = 0 then (CFloat.nan, (s.vectorscope_graticule 0).2)
                          else s.vectorscope_graticule k
               else s.vectorscope_graticule })
    ∧ scope_type_clicked hv s
      = (match s.scope_type.next with
         | ScopeType.histogram => { s with scope_type := s.scope_type.next }
         | ScopeType.waveform => { s with scope_type := s.scope_type.next }
         | ScopeType.vectorscope =>
           { s with
             scope_type := s.scope_type.next,
             vectorscope_graticule :=
               if hv then
                 fun k => if k = 0 then (CFloat.nan, (s.vectorscope_graticule 0).2)
                          else s.vectorscope_graticule k
               else s.vectorscope_graticule })
    ∧ (scope_view_clicked hv s).histogram = s.histogram
    ∧ (scope_view_clicked hv s).histogram_max = s.histogram_max
    ∧ (scope_view_clicked hv s).waveform_linear = s.waveform_linear
    ∧ (scope_view_clicked hv s).waveform_width = s.waveform_width
    ∧ (scope_view_clicked hv s).vectorscope_alpha = s.vectorscope_alpha
    ∧ (scope_type_clicked hv s).histogram = s.histogram
    ∧ (scope_type_clicked hv s).histogram_max = s.histogram_max
    ∧ (scope_type_clicked hv s).waveform_linear = s.waveform_linear
    ∧ (scope_type_clicked hv s).waveform_width = s.waveform_width
    ∧ (scope_type_clicked hv s).vectorscope_alpha = s.vectorscope_alpha := by
  obtain ⟨hgram, hmax, wl, ww, wh, wmw, va, vd, vg, st, hsc, wt, vt⟩ := s
  cases st <;> cases hv <;>
    simp [scope_view_clicked, scope_type_clicked, scope_type_update,
      vectorscope_view_update, histogram_scale_update, waveform_view_update,
      ScopeType.next]

/-- C9 counterexample: in vectorscope mode with an active view, the sub-mode
toggle (`_scope_view_clicked`) overwrites graticule point 0's first
coordinate with NaN, so it does not leave the graticule unchanged. -/
theorem claim9_cex :
    c9State.scope_type = ScopeType.vectorscope
    ∧ c9State.vectorscope_graticule 0 = (CFloat.fin 5, CFloat.fin 5)
    ∧ (scope_view_clicked true c9State).vectorscope_graticule 0
        = (CFloat.nan, CFloat.fin 5)
    ∧ (CFloat.nan, CFloat.fin 5) ≠ (CFloat.fin 5, CFloat.fin 5) := by
  refine ⟨rfl, rfl, ?_, by decide⟩
  simp [scope_view_clicked, c9State, defaultState, vectorscope_view_update]
